import Mathlib

/-!
# Verification of the exam-portal core (src/app.py)

A shallow embedding of the exam portal's data model and operations:
the user registry, config store and question bank (SQLite tables become
lists of records), the scoring engine `calculate_and_submit`, the session
phase logic of `page_exam`, the CSV question upload of `page_admin`, and
the signup path of `page_login`.  Python floats are modelled as rationals
(`Rat`); timestamps are seconds on a single linear timeline (the system
pins everything to one timezone, IST).
-/

namespace ExamPortal

/-- A row of the `users` table:
`(username TEXT PRIMARY KEY, password TEXT, role TEXT, score REAL)`. -/
structure User where
  username : String
  password : String
  role : String
  score : Rat
deriving DecidableEq, Repr

/-- A row of the `questions` table:
`(id, question, opt1, opt2, opt3, opt4, correct_opt)`. -/
structure Question where
  id : Nat
  question : String
  opt1 : String
  opt2 : String
  opt3 : String
  opt4 : String
  correct_opt : String
deriving DecidableEq, Repr

/-- The durable state: the three SQLite tables.  `config` is the
key/value table (`key TEXT PRIMARY KEY, value TEXT`). -/
structure DB where
  users : List User
  config : List (String × String)
  questions : List Question
deriving DecidableEq, Repr

/-- `SELECT value FROM config WHERE key=?` — first (only) row, if any. -/
def configGet (db : DB) (k : String) : Option String :=
  (db.config.find? (fun p => p.1 = k)).map (fun p => p.2)

/-- `SELECT score FROM users WHERE username=?` — the stored score of a
user, if the row exists. -/
def getScore (db : DB) (u : String) : Option Rat :=
  (db.users.find? (fun x => x.username = u)).map (fun x => x.score)

/-- `UPDATE users SET score=? WHERE username=?` — note: unconditional, no
guard on the previous score value. -/
def updateScore (users : List User) (u : String) (v : Rat) : List User :=
  users.map (fun x => if x.username = u then { x with score := v } else x)

/-- The in-session answer map `st.session_state['user_answers']`: question
id to the selected option.  A key absent (or mapped to Python `None`,
which `calculate_and_submit` treats identically) means unanswered. -/
def Answers := List (Nat × String)

/-- `user_ans.get(qid, None)`. -/
def lookupAns (ans : Answers) (qid : Nat) : Option String :=
  (List.find? (fun p => p.1 = qid) ans).map (fun p => p.2)

/-- The scoring loop of `calculate_and_submit` (lines 60-72 of src/app.py):
starting from `score = 0`, for each question add 1 when the selected
answer equals `correct_opt`, else subtract `pen` when an answer was
selected and negative marking is on, else leave the score unchanged. -/
def scoreLoop (is_neg : Bool) (pen : Rat) (ans : Answers) (qs : List Question) : Rat :=
  qs.foldl
    (fun score q =>
      let selected := lookupAns ans q.id
      if selected = some q.correct_opt then score + 1
      else if selected.isSome && is_neg then score - pen
      else score)
    0

/-- The pure scoring engine: the loop above followed by
`final_percent = (score / total) * 100 if total > 0 else 0`. -/
def scoreOf (qs : List Question) (ans : Answers) (is_neg : Bool) (pen : Rat) : Rat :=
  let score := scoreLoop is_neg pen ans qs
  let total := qs.length
  if 0 < total then score / total * 100 else 0

/-- Numeric value of a digit character. -/
def dval (c : Char) : Nat := c.toNat - 48

/-- Value of a digit string read left to right. -/
def digitsVal (cs : List Char) : Nat :=
  cs.foldl (fun n c => n * 10 + dval c) 0

/-- A non-empty all-digit character list, or `none`. -/
def parseDigits (cs : List Char) : Option Nat :=
  if cs ≠ [] ∧ cs.all Char.isDigit then some (digitsVal cs) else none

/-- Split a character list at the `.` separators. -/
def splitDot : List Char → List (List Char)
  | [] => [[]]
  | c :: rest =>
    if c = '.' then [] :: splitDot rest
    else
      match splitDot rest with
      | g :: gs => (c :: g) :: gs
      | [] => [[c]]

/-- Models Python `float(...)` on the decimal literals this portal stores
for `penalty` — an optional minus sign, an integer part and an optional
fraction part, both non-empty digit runs (`str` of a Python float always
has that shape); `none` models the `ValueError` raised on anything
else. -/
def pyFloat (s : String) : Option Rat :=
  let p : Rat × List Char :=
    match s.toList with
    | '-' :: rest => (-1, rest)
    | cs => (1, cs)
  match splitDot p.2 with
  | [i] => (parseDigits i).map (fun n => p.1 * n)
  | [i, f] =>
    match parseDigits i, parseDigits f with
    | some a, some b => some (p.1 * ((a : Rat) + (b : Rat) / (10 ^ f.length)))
    | _, _ => none
  | _ => none

/-- Models Python `int(...)` on the config string for `duration` — an
optional minus sign and a digit run; `none` models the `ValueError`
raised on a non-integer string. -/
def pyInt (s : String) : Option Int :=
  match s.toList with
  | '-' :: rest => (parseDigits rest).map (fun n => -(n : Int))
  | cs => (parseDigits cs).map (fun n => (n : Int))

/-- `is_neg = (neg_mark[0][0] == '1') if neg_mark else False`. -/
def is_neg_of (db : DB) : Bool :=
  configGet db "neg_marking" = some "1"

/-- `pen_val = float(penalty[0][0]) if penalty else 0.0`; `none` models
the `ValueError` raised when the stored penalty is unparseable. -/
def pen_val_of (db : DB) : Option Rat :=
  match configGet db "penalty" with
  | some p => pyFloat p
  | none => some 0

/-- `calculate_and_submit` (lines 50-75 of src/app.py): read the
`neg_marking` and `penalty` config values, score the session answers over
the whole question bank, and write the final percentage into the user's
row with an **unconditional** `UPDATE`.  The result is `none` exactly
when `float(penalty)` would raise. -/
def calculate_and_submit (db : DB) (ans : Answers) (user : String) :
    Option (DB × Rat) :=
  match pen_val_of db with
  | none => none
  | some pen =>
    let final_percent := scoreOf db.questions ans (is_neg_of db) pen
    some ({ db with users := updateScore db.users user final_percent }, final_percent)

/-- Gregorian leap year, as in Python's `datetime`. -/
def isLeap (y : Nat) : Bool :=
  (y % 4 == 0 && y % 100 != 0) || y % 400 == 0

/-- Length of a month in the Gregorian calendar. -/
def daysInMonth (y m : Nat) : Nat :=
  if m = 2 then (if isLeap y then 29 else 28)
  else if m = 4 ∨ m = 6 ∨ m = 9 ∨ m = 11 then 30
  else 31

/-- Days in year `y` strictly before month `m`. -/
def daysBeforeMonth (y m : Nat) : Nat :=
  (List.range (m - 1)).foldl (fun acc i => acc + daysInMonth y (i + 1)) 0

/-- Proleptic-Gregorian ordinal of a date, as in `datetime.toordinal`. -/
def toOrdinal (y m d : Nat) : Nat :=
  365 * (y - 1) + (y - 1) / 4 - (y - 1) / 100 + (y - 1) / 400 + daysBeforeMonth y m + d

/-- Models `datetime.datetime.fromisoformat` on the timestamps this
portal stores: `page_admin` only ever writes `isoformat()` of an
IST-localized, microsecond-free datetime, i.e. the exact shape
`YYYY-MM-DDTHH:MM:SS+05:30`.  The result is the timestamp as seconds on
the system's single (IST) timeline; `none` models the `ValueError`
raised on any string the library cannot parse (the model also rejects
the ISO shapes the portal never produces). -/
def pyFromisoformat (s : String) : Option Int :=
  match s.toList with
  | [y1, y2, y3, y4, c1, m1, m2, c2, d1, d2, t, h1, h2, c3, n1, n2, c4, s1, s2,
     p, z1, z2, c5, z3, z4] =>
    if c1 = '-' ∧ c2 = '-' ∧ t = 'T' ∧ c3 = ':' ∧ c4 = ':' ∧
        p = '+' ∧ z1 = '0' ∧ z2 = '5' ∧ c5 = ':' ∧ z3 = '3' ∧ z4 = '0' ∧
        ([y1, y2, y3, y4, m1, m2, d1, d2, h1, h2, n1, n2, s1, s2].all Char.isDigit) then
      let y := dval y1 * 1000 + dval y2 * 100 + dval y3 * 10 + dval y4
      let mo := dval m1 * 10 + dval m2
      let dy := dval d1 * 10 + dval d2
      let hh := dval h1 * 10 + dval h2
      let mi := dval n1 * 10 + dval n2
      let ss := dval s1 * 10 + dval s2
      if 1 ≤ y ∧ 1 ≤ mo ∧ mo ≤ 12 ∧ 1 ≤ dy ∧ dy ≤ daysInMonth y mo ∧
          hh ≤ 23 ∧ mi ≤ 59 ∧ ss ≤ 59 then
        some ((toOrdinal y mo dy * 86400 + hh * 3600 + mi * 60 + ss : Nat) : Int)
      else none
    else none
  | _ => none

/-- The session phases a student-facing evaluation can land in. -/
inductive Phase where
  | SUBMITTED
  | NOT_SCHEDULED
  | NOT_STARTED
  | IN_PROGRESS (left_sec : Int)
  | EXPIRED
deriving DecidableEq, Repr

/-- `page_exam` (lines 162-226 of src/app.py), as the phase computed for
one evaluation at wall-clock time `now` (seconds, IST), together with
the database state it leaves behind.  In order: the stored score is read
(`none` models the `IndexError` when the user row is missing); a
non-sentinel score short-circuits to `SUBMITTED`; a missing `start_time`
or `duration` config row yields `NOT_SCHEDULED`; then both values are
parsed (`none` models the uncaught `ValueError` of
`datetime.fromisoformat` / `int`); `now < start_dt` yields
`NOT_STARTED`; `now > end_dt` yields `EXPIRED` after running
`calculate_and_submit`; otherwise `IN_PROGRESS` carrying
`left_sec = end_dt - now`. -/
def page_exam (db : DB) (ans : Answers) (user : String) (now : Int) :
    Option (Phase × DB) :=
  match getScore db user with
  | none => none
  | some my_score =>
    if my_score ≠ -999 then some (Phase.SUBMITTED, db)
    else
      match configGet db "start_time", configGet db "duration" with
      | some ss, some ds =>
        match pyFromisoformat ss, pyInt ds with
        | some start_dt, some dur =>
          let end_dt := start_dt + dur * 60
          if now < start_dt then some (Phase.NOT_STARTED, db)
          else if end_dt < now then
            match calculate_and_submit db ans user with
            | some (db2, _) => some (Phase.EXPIRED, db2)
            | none => none
          else some (Phase.IN_PROGRESS (end_dt - now), db)
        | _, _ => none
      | _, _ => some (Phase.NOT_SCHEDULED, db)

/-- Committed question-table states produced by inserting `rows` one
statement at a time starting from table state `qs`. -/
def insertRowsStates (qs : List Question) : List Question → List (List Question)
  | [] => [qs]
  | r :: rs => qs :: insertRowsStates (qs ++ [r]) rs

/-- The committed question-table states observable while `page_admin`
processes an uploaded CSV (lines 146-152 of src/app.py): each
`run_query` opens its own connection and commits on return, so after
`DELETE FROM questions` the table is empty and each row's `INSERT`
commits separately.  The trace lists the table state before processing,
after the delete, and after each insert. -/
def processCSV_trace (old rows : List Question) : List (List Question) :=
  old :: insertRowsStates [] rows

/-- The "Create Account" path of `page_login` (lines 99-105 of
src/app.py): if `SELECT * FROM users WHERE username=?` returns any row,
report "User exists" and write nothing; else insert
`(new_u, make_hashes(new_p), 'student', -999)`.  `hash` abstracts
`hashlib.sha256(...).hexdigest()`.  Returns the new state and whether
the account was created. -/
def signup (hash : String → String) (db : DB) (new_u new_p : String) : DB × Bool :=
  if db.users.filter (fun x => x.username = new_u) ≠ [] then (db, false)
  else ({ db with users := db.users ++ [⟨new_u, hash new_p, "student", -999⟩] }, true)

/-- The database state `calculate_and_submit` leaves behind: the user's
row updated to the computed score, everything else untouched. -/
def submitState (db : DB) (ans : Answers) (user : String) (pen : Rat) : DB :=
  { db with
    users := updateScore db.users user (scoreOf db.questions ans (is_neg_of db) pen) }

/-- Per-question award as the spec words it (the spec side of the
scoring-engine refinement): +1 for a correct answer, 0 when unanswered,
and for a wrong answer 0 without negative marking or minus the penalty
with it. -/
def specAward (is_neg : Bool) (pen : Rat) (ans : Answers) (q : Question) : Rat :=
  match lookupAns ans q.id with
  | none => 0
  | some sel => if sel = q.correct_opt then 1 else if is_neg then -pen else 0

/-- Fixture: question 1, options A-D, correct option "A". -/
def qA : Question := ⟨1, "Q1", "A", "B", "C", "D", "A"⟩

/-- Fixture: question 2, options A-D, correct option "B". -/
def qB : Question := ⟨2, "Q2", "A", "B", "C", "D", "B"⟩

/-- Fixture: question 3, options A-D, correct option "C". -/
def qC : Question := ⟨3, "Q3", "A", "B", "C", "D", "C"⟩

/-- The start timestamp the admin fixture stores. -/
def startStr : String := "2025-06-01T10:00:00+05:30"

/-- `pyFromisoformat startStr`, in seconds on the IST timeline. -/
def startSec : Int := 63884455200

/-- Fixture: a fully configured 30-minute exam with one not-yet-submitted
student "s". -/
def dbW : DB :=
  { users := [⟨"s", "h", "student", -999⟩],
    config := [("start_time", startStr), ("duration", "30"),
               ("neg_marking", "1"), ("penalty", "0.25"), ("show_result", "1")],
    questions := [qA, qB] }

/-- Fixture: a malformed `start_time` value alongside a valid duration. -/
def dbMal : DB :=
  { users := [⟨"s", "h", "student", -999⟩],
    config := [("start_time", "not-a-timestamp"), ("duration", "30")],
    questions := [qA, qB] }

/-- Fixture: no schedule configured at all. -/
def dbNS : DB :=
  { users := [⟨"s", "h", "student", -999⟩], config := [], questions := [qA, qB] }

/-- Fixture for the auto-submit race: one not-yet-submitted student, one
question, no scoring config (so no negative marking, penalty 0). -/
def dbC1 : DB :=
  { users := [⟨"s", "h", "student", -999⟩], config := [], questions := [qA] }

/-- `dbC1` after a first score write of 100. -/
def dbC1a : DB := { dbC1 with users := [⟨"s", "h", "student", 100⟩] }

/-- `dbC1` after a second score write of 0. -/
def dbC1b : DB := { dbC1 with users := [⟨"s", "h", "student", 0⟩] }

/-- Fixture for the negative-score claim: one question, negative marking
on with penalty 0.25. -/
def dbC6 : DB :=
  { users := [⟨"s", "h", "student", -999⟩],
    config := [("neg_marking", "1"), ("penalty", "0.25")],
    questions := [qA] }

/-- The scoring loop accumulates exactly the per-question awards. -/
lemma scoreLoop_eq_sum (is_neg : Bool) (pen : Rat) (ans : Answers)
    (qs : List Question) :
    scoreLoop is_neg pen ans qs = (qs.map (specAward is_neg pen ans)).sum := by
  have h : ∀ (l : List Question) (init : Rat),
      List.foldl
        (fun score q =>
          let selected := lookupAns ans q.id
          if selected = some q.correct_opt then score + 1
          else if selected.isSome && is_neg then score - pen
          else score)
        init l = init + (l.map (specAward is_neg pen ans)).sum := by
    intro l
    induction l with
    | nil => intro init; simp
    | cons q rest ih =>
      intro init
      rw [List.foldl_cons, List.map_cons, List.sum_cons, ih]
      cases hsel : lookupAns ans q.id with
      | none => simp [specAward, hsel]
      | some v =>
        by_cases hv : v = q.correct_opt
        · simp only [specAward, hsel, hv]
          simp
          ring
        · cases is_neg <;> (simp [specAward, hsel, hv]; try ring)
  simpa [scoreLoop] using h qs 0

/-- A non-SENTINEL stored score short-circuits the evaluation. -/
lemma page_exam_submitted (db : DB) (ans : Answers) (user : String) (now : Int)
    (score : Rat) (hs : getScore db user = some score) (hne : score ≠ -999) :
    page_exam db ans user now = some (Phase.SUBMITTED, db) := by
  simp only [page_exam, hs]
  rw [if_pos hne]

/-- A missing schedule key yields the NOT_SCHEDULED state. -/
lemma page_exam_not_scheduled (db : DB) (ans : Answers) (user : String) (now : Int)
    (hs : getScore db user = some (-999))
    (hmiss : configGet db "start_time" = none ∨ configGet db "duration" = none) :
    page_exam db ans user now = some (Phase.NOT_SCHEDULED, db) := by
  simp only [page_exam, hs]
  rw [if_neg (by simp)]
  rcases hmiss with h | h
  · rw [h]
  · rw [h]
    cases configGet db "start_time" <;> rfl

/-- With both schedule values present and parsed, the evaluation reduces
to the three-way time comparison of the source. -/
lemma page_exam_scheduled (db : DB) (ans : Answers) (user : String) (now : Int)
    (ss ds : String) (start_dt dur : Int)
    (hs : getScore db user = some (-999))
    (hss : configGet db "start_time" = some ss)
    (hds : configGet db "duration" = some ds)
    (hp : pyFromisoformat ss = some start_dt)
    (hd : pyInt ds = some dur) :
    page_exam db ans user now =
      if now < start_dt then some (Phase.NOT_STARTED, db)
      else if start_dt + dur * 60 < now then
        (calculate_and_submit db ans user).map (fun p => (Phase.EXPIRED, p.1))
      else some (Phase.IN_PROGRESS (start_dt + dur * 60 - now), db) := by
  simp only [page_exam, hs, hss, hds, hp, hd]
  rw [if_neg (by simp)]
  by_cases h1 : now < start_dt
  · simp only [if_pos h1]
  · simp only [if_neg h1]
    by_cases h2 : start_dt + dur * 60 < now
    · simp only [if_pos h2]
      cases calculate_and_submit db ans user <;> rfl
    · simp only [if_neg h2]

/-- After an `UPDATE ... WHERE username=?` on an existing row, the read
of that row returns the written value. -/
lemma find?_updateScore (users : List User) (u : String) (v : Rat)
    (h : (users.find? (fun x => x.username = u)).isSome) :
    ((updateScore users u v).find? (fun x => x.username = u)).map
      (fun x => x.score) = some v := by
  induction users with
  | nil => simp [List.find?] at h
  | cons x xs ih =>
    by_cases hx : x.username = u
    · simp [updateScore, List.find?, hx]
    · rw [updateScore, List.map_cons]
      rw [List.find?_cons_of_neg _ (by simp [hx])]
      rw [List.find?_cons_of_neg _ (by simp [hx])] at h
      exact ih h

/-- `getScore` after `updateScore` on an existing user. -/
lemma getScore_updateScore (db : DB) (user : String) (v : Rat)
    (h : (getScore db user).isSome) :
    getScore { db with users := updateScore db.users user v } user = some v := by
  have h' : (db.users.find? (fun x => x.username = user)).isSome := by
    simpa [getScore] using h
  simpa [getScore, updateScore] using find?_updateScore db.users user v h'

/-- C2: the scoring engine computes the spec's per-question award
formula — +1 for a correct answer, 0 for an unanswered question
regardless of the negative-marking flag, and for a wrong answer 0 when
negative marking is off or minus the penalty when it is on — and the
result is the award sum divided by the question count, times 100.  On
the spec's examples over questions with correct options A and B: answers
{q1 : A, q2 : C} with negative marking and penalty 1/4 score 75/2
(= 37.5), and with q2 left unanswered 50. -/
theorem C2_scoring_formula :
    (∀ (qs : List Question) (ans : Answers) (is_neg : Bool) (pen : Rat),
        scoreOf qs ans is_neg pen =
          if 0 < qs.length then
            (qs.map (specAward is_neg pen ans)).sum / qs.length * 100
          else 0) ∧
    scoreOf [qA, qB] [(1, "A"), (2, "C")] true (1 / 4) = 75 / 2 ∧
    scoreOf [qA, qB] [(1, "A")] true (1 / 4) = 50 := by
  refine ⟨fun qs ans is_neg pen => ?_, ?_, ?_⟩
  · simp only [scoreOf, scoreLoop_eq_sum]
  · simp [scoreOf, scoreLoop, lookupAns, List.find?, List.foldl, qA, qB]
    norm_num
  · simp [scoreOf, scoreLoop, lookupAns, List.find?, List.foldl, qA, qB]
    norm_num

/-- C5: an empty question bank scores exactly 0 for every answer map and
every rules configuration; the `total > 0` guard means the division is
never taken. -/
theorem C5_empty_bank_zero (ans : Answers) (is_neg : Bool) (pen : Rat) :
    scoreOf [] ans is_neg pen = 0 := rfl

/-- C6: the score is not clamped below 0: with one question answered
wrong under negative marking with penalty 0.25, the engine returns -25,
which is strictly negative, and `calculate_and_submit` persists exactly
that negative value as the student's stored score. -/
theorem C6_negative_score_persisted :
    scoreOf [qA] [(1, "C")] true (1 / 4) = -25 ∧ (-25 : Rat) < 0 ∧
    calculate_and_submit dbC6 [(1, "C")] "s" =
      some ({ dbC6 with users := [⟨"s", "h", "student", -25⟩] }, -25) ∧
    getScore { dbC6 with users := [⟨"s", "h", "student", -25⟩] } "s" =
      some (-25) := by
  have hq : pyFloat "0.25" = some (1 / 4) := by
    simp [pyFloat, show "0.25".toList = ['0', '.', '2', '5'] from rfl, splitDot,
      parseDigits, digitsVal, dval]
    norm_num
  refine ⟨?_, by norm_num, ?_, by decide⟩
  · simp [scoreOf, scoreLoop, lookupAns, List.find?, List.foldl, qA]
    norm_num
  · simp [calculate_and_submit, pen_val_of, is_neg_of, configGet, List.find?, dbC6, hq,
      scoreOf, scoreLoop, lookupAns, List.foldl, updateScore, qA]
    norm_num

/-- C1 (code bug): the score-persisting write of `calculate_and_submit`
is the unconditional `UPDATE users SET score=? WHERE username=?`, not a
compare-and-set on SENTINEL: at `dbC1` the stored score is the SENTINEL
-999 and a first invocation writes 100; invoked again — as a duplicate
EXPIRED re-evaluation that passed its own SENTINEL check before the
first write landed — the write still takes effect on the non-SENTINEL
state and changes the stored score from 100 to 0, so a second score
write succeeds. -/
theorem C1_write_not_guarded :
    getScore dbC1 "s" = some (-999) ∧
    calculate_and_submit dbC1 [(1, "A")] "s" = some (dbC1a, 100) ∧
    getScore dbC1a "s" = some 100 ∧ (100 : Rat) ≠ -999 ∧
    calculate_and_submit dbC1a [] "s" = some (dbC1b, 0) ∧
    getScore dbC1b "s" = some 0 ∧ (0 : Rat) ≠ 100 := by
  refine ⟨by decide, ?_, by decide, by decide, ?_, by decide, by decide⟩
  · simp [calculate_and_submit, pen_val_of, is_neg_of, configGet, scoreOf, scoreLoop,
      lookupAns, List.find?, List.foldl, updateScore, qA, dbC1, dbC1a]
  · simp [calculate_and_submit, pen_val_of, is_neg_of, configGet, scoreOf, scoreLoop,
      lookupAns, List.find?, List.foldl, updateScore, qA, dbC1, dbC1a, dbC1b]

/-- C3: for a not-yet-submitted student, the phase is computed in the
spec's precedence order on every evaluation: a non-SENTINEL stored score
yields SUBMITTED (checked first); else a missing start_time or duration
yields NOT_SCHEDULED; else, with both values parsed, now < start_time
yields NOT_STARTED; else now > end_time (end_time = start_time +
duration minutes) yields EXPIRED and mandatorily runs the scoring engine
on whatever answers have been collected so far (possibly none),
persisting the resulting score into the user's row; else IN_PROGRESS,
exposing remaining seconds end_time - now. -/
theorem C3_phase_precedence (db : DB) (ans : Answers) (user : String) (now : Int)
    (score : Rat) (hs : getScore db user = some score) :
    (score ≠ -999 → page_exam db ans user now = some (Phase.SUBMITTED, db)) ∧
    (score = -999 →
      (configGet db "start_time" = none ∨ configGet db "duration" = none) →
      page_exam db ans user now = some (Phase.NOT_SCHEDULED, db)) ∧
    (∀ ss ds start_dt dur, score = -999 →
      configGet db "start_time" = some ss →
      configGet db "duration" = some ds →
      pyFromisoformat ss = some start_dt →
      pyInt ds = some dur →
      ((now < start_dt → page_exam db ans user now = some (Phase.NOT_STARTED, db)) ∧
       (start_dt ≤ now → start_dt + dur * 60 < now →
         ∀ pen, pen_val_of db = some pen →
           page_exam db ans user now =
             some (Phase.EXPIRED, submitState db ans user pen) ∧
           getScore (submitState db ans user pen) user =
             some (scoreOf db.questions ans (is_neg_of db) pen)) ∧
       (start_dt ≤ now → now ≤ start_dt + dur * 60 →
         page_exam db ans user now =
           some (Phase.IN_PROGRESS (start_dt + dur * 60 - now), db)))) := by
  refine ⟨fun hne => page_exam_submitted db ans user now score hs hne, ?_, ?_⟩
  · intro h999 hmiss
    subst h999
    exact page_exam_not_scheduled db ans user now hs hmiss
  · intro ss ds start_dt dur h999 hss hds hp hd
    subst h999
    refine ⟨?_, ?_, ?_⟩
    · intro h1
      rw [page_exam_scheduled db ans user now ss ds start_dt dur hs hss hds hp hd,
        if_pos h1]
    · intro hge hlt pen hpen
      have hcalc : calculate_and_submit db ans user =
          some (submitState db ans user pen,
            scoreOf db.questions ans (is_neg_of db) pen) := by
        simp [calculate_and_submit, submitState, hpen]
      constructor
      · rw [page_exam_scheduled db ans user now ss ds start_dt dur hs hss hds hp hd,
          if_neg (not_lt.mpr hge), if_pos hlt, hcalc]
        rfl
      · exact getScore_updateScore db user _ (by simp [hs])
    · intro hge hle
      rw [page_exam_scheduled db ans user now ss ds start_dt dur hs hss hds hp hd,
        if_neg (not_lt.mpr hge), if_neg (not_lt.mpr hle)]

/-- Witness for C3: the concrete configured exam, evaluated five seconds
before its window opens, is NOT_STARTED. -/
theorem C3_phase_precedence_witness :
    page_exam dbW [] "s" (startSec - 5) = some (Phase.NOT_STARTED, dbW) := by
  have h := C3_phase_precedence dbW [] "s" (startSec - 5) (-999) (by decide)
  exact (h.2.2 startStr "30" startSec 30 rfl (by decide) (by decide) (by decide)
    (by decide)).1 (by decide)

/-- C4 counterexample: with a malformed `start_time` present alongside a
valid duration, the evaluation for a not-yet-submitted student does not
yield NOT_SCHEDULED — it aborts with the uncaught parse failure
(modelled as `none`), contradicting the claim that malformed
configuration is treated as NOT_SCHEDULED and never errors. -/
theorem C4_malformed_config_raises :
    page_exam dbMal [] "s" 0 = none ∧
    page_exam dbMal [] "s" 0 ≠ some (Phase.NOT_SCHEDULED, dbMal) :=
  ⟨by decide, by decide⟩

/-- C4 amended: a missing start_time or duration yields the
NOT_SCHEDULED informational state with no error; but a present yet
malformed start_time is parsed without a handler, so the parse failure
propagates instead of yielding NOT_SCHEDULED. -/
theorem C4_not_scheduled_or_raise (db : DB) (ans : Answers) (user : String)
    (now : Int) (hs : getScore db user = some (-999)) :
    ((configGet db "start_time" = none ∨ configGet db "duration" = none) →
      page_exam db ans user now = some (Phase.NOT_SCHEDULED, db)) ∧
    (∀ ss ds, configGet db "start_time" = some ss →
      configGet db "duration" = some ds → pyFromisoformat ss = none →
      page_exam db ans user now = none) := by
  constructor
  · exact page_exam_not_scheduled db ans user now hs
  · intro ss ds hss hds hbad
    simp only [page_exam, hs, hss, hds, hbad]
    rw [if_neg (by simp)]

/-- Witness for C4 amended: with an empty config store the student sees
NOT_SCHEDULED, and the malformed fixture propagates the parse failure. -/
theorem C4_not_scheduled_or_raise_witness :
    page_exam dbNS [] "s" 12345 = some (Phase.NOT_SCHEDULED, dbNS) ∧
    page_exam dbMal [] "s" 12345 = none := by
  refine ⟨(C4_not_scheduled_or_raise dbNS [] "s" 12345 (by decide)).1
    (Or.inl (by decide)), ?_⟩
  exact (C4_not_scheduled_or_raise dbMal [] "s" 12345 (by decide)).2
    "not-a-timestamp" "30" (by decide) (by decide) (by decide)

/-- C7: for a not-yet-submitted student with a configured schedule of
non-negative duration, evaluation exactly at start_time is IN_PROGRESS —
the start of the window is inclusive (the code tests `now < start_dt`
strictly). -/
theorem C7_start_boundary_inclusive (db : DB) (ans : Answers) (user : String)
    (ss ds : String) (start_dt dur : Int)
    (hs : getScore db user = some (-999))
    (hss : configGet db "start_time" = some ss)
    (hds : configGet db "duration" = some ds)
    (hp : pyFromisoformat ss = some start_dt)
    (hd : pyInt ds = some dur)
    (hdur : 0 ≤ dur) :
    page_exam db ans user start_dt = some (Phase.IN_PROGRESS (dur * 60), db) := by
  rw [page_exam_scheduled db ans user start_dt ss ds start_dt dur hs hss hds hp hd,
    if_neg (lt_irrefl start_dt), if_neg (by omega)]
  rw [add_sub_cancel_left]

/-- Witness for C7: the concrete configured exam evaluated exactly at
its start instant is IN_PROGRESS with the full 1800 seconds left. -/
theorem C7_start_boundary_witness :
    page_exam dbW [] "s" startSec = some (Phase.IN_PROGRESS 1800, dbW) := by
  have h := C7_start_boundary_inclusive dbW [] "s" startStr "30" startSec 30
    (by decide) (by decide) (by decide) (by decide) (by decide) (by decide)
  simpa using h

/-- C9: the end of the window is inclusive: evaluated exactly at
end_time the phase is IN_PROGRESS with 0 seconds remaining; the EXPIRED
state with its auto-submit side effect occurs exactly when now is
strictly greater than end_time, and never at or before it. -/
theorem C9_end_boundary_inclusive (db : DB) (ans : Answers) (user : String)
    (ss ds : String) (start_dt dur : Int)
    (hs : getScore db user = some (-999))
    (hss : configGet db "start_time" = some ss)
    (hds : configGet db "duration" = some ds)
    (hp : pyFromisoformat ss = some start_dt)
    (hd : pyInt ds = some dur)
    (hdur : 0 ≤ dur) :
    page_exam db ans user (start_dt + dur * 60) =
      some (Phase.IN_PROGRESS 0, db) ∧
    (∀ now, start_dt + dur * 60 < now →
      page_exam db ans user now =
        (calculate_and_submit db ans user).map (fun p => (Phase.EXPIRED, p.1))) ∧
    (∀ now r, now ≤ start_dt + dur * 60 → page_exam db ans user now = some r →
      r.1 ≠ Phase.EXPIRED) := by
  refine ⟨?_, ?_, ?_⟩
  · rw [page_exam_scheduled db ans user (start_dt + dur * 60) ss ds start_dt dur
      hs hss hds hp hd, if_neg (by omega), if_neg (lt_irrefl _)]
    rw [sub_self]
  · intro now hlt
    rw [page_exam_scheduled db ans user now ss ds start_dt dur hs hss hds hp hd,
      if_neg (by omega), if_pos hlt]
  · intro now r hle hpe
    rw [page_exam_scheduled db ans user now ss ds start_dt dur hs hss hds hp hd]
      at hpe
    by_cases h1 : now < start_dt
    · rw [if_pos h1] at hpe
      obtain rfl := Option.some.inj hpe
      simp
    · rw [if_neg h1, if_neg (by omega)] at hpe
      obtain rfl := Option.some.inj hpe
      simp

/-- Witness for C9: the concrete configured exam at its exact end
instant is IN_PROGRESS with 0 seconds left, and one second later the
evaluation takes the EXPIRED auto-submit path. -/
theorem C9_end_boundary_witness :
    page_exam dbW [] "s" (startSec + 1800) = some (Phase.IN_PROGRESS 0, dbW) ∧
    page_exam dbW [] "s" (startSec + 1801) =
      (calculate_and_submit dbW [] "s").map (fun p => (Phase.EXPIRED, p.1)) := by
  have h := C9_end_boundary_inclusive dbW [] "s" startStr "30" startSec 30
    (by decide) (by decide) (by decide) (by decide) (by decide) (by decide)
  exact ⟨by simpa using h.1, h.2.1 (startSec + 1801) (by decide)⟩

/-- Each state reached while inserting `rows` from table state `qs` is
`qs` extended by some initial segment of `rows`. -/
lemma insertRowsStates_mem (rows : List Question) :
    ∀ (qs s : List Question), s ∈ insertRowsStates qs rows →
      ∃ i, i ≤ rows.length ∧ s = qs ++ rows.take i := by
  induction rows with
  | nil =>
    intro qs s h
    simp [insertRowsStates] at h
    exact ⟨0, by simp, by simp [h]⟩
  | cons r rs ih =>
    intro qs s h
    simp only [insertRowsStates, List.mem_cons] at h
    rcases h with rfl | h
    · exact ⟨0, by simp, by simp⟩
    · obtain ⟨i, hi, hsv⟩ := ih (qs ++ [r]) s h
      refine ⟨i + 1, by simpa using hi, ?_⟩
      simp [hsv, List.take_succ_cons]

/-- The insert trace is never empty. -/
lemma insertRowsStates_ne_nil (qs rows : List Question) :
    insertRowsStates qs rows ≠ [] := by
  cases rows <;> simp [insertRowsStates]

/-- The insert trace ends with all rows inserted. -/
lemma insertRowsStates_getLast? (rows : List Question) :
    ∀ qs, (insertRowsStates qs rows).getLast? = some (qs ++ rows) := by
  induction rows with
  | nil => intro qs; simp [insertRowsStates]
  | cons r rs ih =>
    intro qs
    rw [insertRowsStates]
    rcases hL : insertRowsStates (qs ++ [r]) rs with _ | ⟨b, t⟩
    · exact absurd hL (insertRowsStates_ne_nil _ _)
    · rw [List.getLast?_cons_cons, ← hL, ih]
      simp

/-- C8 counterexample: uploading the two-question set [qB, qC] over the
old bank [qA] commits intermediate states; the state [qB] is in the
observable trace yet is neither the old set nor the new set, so the
replacement is not a single atomic batch. -/
theorem C8_upload_not_atomic :
    [qB] ∈ processCSV_trace [qA] [qB, qC] ∧
    [qB] ≠ [qA] ∧ [qB] ≠ [qB, qC] :=
  ⟨by decide, by decide, by decide⟩

/-- C8 amended: the upload deletes the whole old set before inserting,
so every observable state is the old set or an initial segment of the
new set — no state ever mixes old and new questions — and the trace ends
at exactly the new set; but each statement commits separately, so the
emptied bank (and every other initial segment of the new set) is an
observable intermediate state: the replacement is not atomic. -/
theorem C8_upload_states (old rows : List Question) :
    (∀ s ∈ processCSV_trace old rows,
      s = old ∨ ∃ i, i ≤ rows.length ∧ s = rows.take i) ∧
    (processCSV_trace old rows).getLast? = some rows ∧
    [] ∈ processCSV_trace old rows := by
  refine ⟨?_, ?_, ?_⟩
  · intro s hsmem
    rcases List.mem_cons.mp hsmem with rfl | h
    · exact Or.inl rfl
    · obtain ⟨i, hi, hsv⟩ := insertRowsStates_mem rows [] s h
      exact Or.inr ⟨i, hi, by simpa using hsv⟩
  · rw [processCSV_trace]
    rcases hL : insertRowsStates [] rows with _ | ⟨b, t⟩
    · exact absurd hL (insertRowsStates_ne_nil _ _)
    · rw [List.getLast?_cons_cons, ← hL, insertRowsStates_getLast?]
      simp
  · rw [processCSV_trace]
    cases rows <;> simp [insertRowsStates]

/-- Witness for C8 amended, at the concrete upload of [qB, qC] over
[qA]: the intermediate state [qB] is an initial segment of the new set,
the trace ends at [qB, qC], and the emptied bank is observable. -/
theorem C8_upload_states_witness :
    ([qB] = [qA] ∨ ∃ i, i ≤ 2 ∧ [qB] = [qB, qC].take i) ∧
    (processCSV_trace [qA] [qB, qC]).getLast? = some [qB, qC] ∧
    [] ∈ processCSV_trace [qA] [qB, qC] := by
  have h := C8_upload_states [qA] [qB, qC]
  exact ⟨by simpa using h.1 [qB] (by decide), h.2.1, h.2.2⟩

/-- C10: creating an account under a username that already exists in the
registry is rejected ("User exists") and the whole database is left
unchanged; a signup under a fresh username appends exactly one user row
with role "student" and score equal to the SENTINEL -999, and touches
nothing else. -/
theorem C10_signup_unique_username (hash : String → String) (db : DB)
    (new_u new_p : String) :
    ((∃ u ∈ db.users, u.username = new_u) →
      signup hash db new_u new_p = (db, false)) ∧
    ((∀ u ∈ db.users, u.username ≠ new_u) →
      signup hash db new_u new_p =
        ({ db with users := db.users ++
            [{ username := new_u, password := hash new_p,
               role := "student", score := -999 }] }, true)) := by
  constructor
  · rintro ⟨u, hu, hname⟩
    have hne : db.users.filter (fun x => x.username = new_u) ≠ [] := by
      intro hnil
      rw [List.filter_eq_nil_iff] at hnil
      exact hnil u hu (by simpa using hname)
    simp only [signup]
    rw [if_pos hne]
  · intro hnone
    have hnil : db.users.filter (fun x => x.username = new_u) = [] := by
      rw [List.filter_eq_nil_iff]
      intro a ha
      simpa using hnone a ha
    simp only [signup]
    rw [if_neg (not_not_intro hnil)]

/-- Witness for C10: signing up the already-present username "s" is
rejected and leaves the fixture unchanged; signing up the fresh
username "t" appends the student row with score -999. -/
theorem C10_signup_witness :
    signup (fun s => s) dbNS "s" "pw" = (dbNS, false) ∧
    signup (fun s => s) dbNS "t" "pw" =
      ({ dbNS with users := dbNS.users ++
          [{ username := "t", password := "pw",
             role := "student", score := -999 }] }, true) := by
  refine ⟨(C10_signup_unique_username (fun s => s) dbNS "s" "pw").1 ?_,
    (C10_signup_unique_username (fun s => s) dbNS "t" "pw").2 ?_⟩
  · exact ⟨⟨"s", "h", "student", -999⟩, by decide, rfl⟩
  · intro u hu
    simp [dbNS] at hu
    subst hu
    decide

end ExamPortal
